import Mathlib

/-!
Verification of the ai-gateway response-normalization core.

Shallow embedding of the Go sources:
  internal/models/models.go        (data model)
  internal/prompt (unnamed part_001): GenerateUserPrompt, ParseAIResponse,
      extractJSON, parseUnstructuredResponse, normalizeSeverity
  internal/providers (unnamed part_000): Registry

Go machine integers are modelled as Int (the inputs exercised here are far
from the 64-bit boundary, and no claim concerns overflow).  Go maps are
modelled as association lists with insert-or-overwrite.  The regular
expressions of the source are embedded as explicit backtracking patterns
with Go regexp (leftmost-first, Perl-style) match semantics, and
encoding/json Unmarshal is modelled by a JSON parser plus a field binder
restricted to the exact target struct of the source.
-/

namespace AIReview

/-! ## Data model (internal/models/models.go) -/

structure GitUser where
  Name : String
  Email : String
deriving Repr, DecidableEq

structure GitInfo where
  CommitHash : String
  BranchName : String
  PRNumber : String
  RepoURL : String
  Author : Option GitUser
  Committer : Option GitUser
deriving Repr, DecidableEq

structure ReviewRequest where
  AIModel : String
  AIProvider : String
  Language : String
  ReviewMode : String
  GitDiff : String
  GitInfo : Option GitInfo
deriving Repr, DecidableEq

structure Position where
  Line : Int
  Column : Int
deriving Repr, DecidableEq

structure Range where
  Start : Position
  End : Position
deriving Repr, DecidableEq

structure Location where
  Path : String
  Range : Range
deriving Repr, DecidableEq

structure Code where
  Value : String
  URL : String
deriving Repr, DecidableEq

structure Diagnostic where
  Message : String
  Location : Location
  Severity : String
  Code : Code
  Original : String
  Suggestion : String
deriving Repr, DecidableEq

structure AIProviderResponse where
  Overview : String
  Diagnostics : List Diagnostic
deriving Repr, DecidableEq

/-! ## Go string helpers

Character-level models of the Go standard-library functions the source
uses.  ASCII case mapping suffices: every token the source compares
against is ASCII.
-/

/-- Model of unicode.IsSpace restricted to the code points that can occur in
the byte strings the source handles (ASCII whitespace plus NEL and NBSP). -/
def isGoSpace (c : Char) : Bool :=
  c = ' ' || c = '\t' || c = '\n' || c.toNat = 11 || c.toNat = 12 || c = '\r' ||
  c.toNat = 133 || c.toNat = 160

/-- Model of strings.TrimSpace. -/
def goTrimSpace (s : String) : String :=
  String.mk (((s.toList.dropWhile isGoSpace).reverse.dropWhile isGoSpace).reverse)

/-- Model of strings.ToUpper (ASCII range). -/
def goToUpper (s : String) : String :=
  String.mk (s.toList.map Char.toUpper)

/-- Split a character list around each newline, keeping empty pieces. -/
def splitLines : List Char → List (List Char)
  | [] => [[]]
  | c :: rest =>
    let r := splitLines rest
    if c = '\n' then [] :: r
    else
      match r with
      | [] => [[c]]
      | h :: t => (c :: h) :: t

/-- Model of strings.Split with the newline separator the source passes:
splits around each newline and keeps empty pieces, [""] on empty input. -/
def goSplitNewline (s : String) : List String :=
  (splitLines s.toList).map String.mk

/-- Model of strings.HasPrefix. -/
def goStartsWith (s pre : String) : Bool :=
  pre.toList.isPrefixOf s.toList

/-- Model of strconv.Atoi with the error result discarded, as the source
discards it: a string of an optional sign and decimal digits evaluates to
its value, anything else to 0 (the Go zero value kept on error). -/
def goAtoi (s : String) : Int :=
  let digitsVal : List Char → Int := fun l =>
    l.foldl (fun a c => a * 10 + ((c.toNat : Int) - 48)) 0
  match s.toList with
  | [] => 0
  | c :: rest =>
    if c = '-' then
      if rest ≠ [] && rest.all Char.isDigit then - digitsVal rest else 0
    else if c = '+' then
      if rest ≠ [] && rest.all Char.isDigit then digitsVal rest else 0
    else if (c :: rest).all Char.isDigit then digitsVal (c :: rest) else 0

/-! ## normalizeSeverity (part_001 lines 239-252) -/

/-- Direct translation of normalizeSeverity: case-fold and trim, then the
Go switch with default INFO. -/
def normalizeSeverity (severity : String) : String :=
  let s := goToUpper (goTrimSpace severity)
  if s = "ERROR" || s = "CRITICAL" || s = "HIGH" then "ERROR"
  else if s = "WARNING" || s = "WARN" || s = "MEDIUM" then "WARNING"
  else if s = "INFO" || s = "INFORMATION" || s = "LOW" || s = "NOTE" then "INFO"
  else "INFO"

/-! ## Provider registry (part_000)

The Go map from provider name to provider is modelled as an association
list whose Register removes any previous binding for the name and inserts
the new one, matching map insert-or-overwrite; the interface value is a
type parameter. -/

structure Registry (P : Type) where
  providers : List (String × P)
deriving Repr

/-- NewRegistry: the empty provider map. -/
def NewRegistry (P : Type) : Registry P := ⟨[]⟩

/-- Register adds a provider to the registry (map insert-or-overwrite). -/
def Registry.Register {P : Type} (r : Registry P) (name : String) (provider : P) :
    Registry P :=
  ⟨(name, provider) :: r.providers.filter (fun kv => kv.1 ≠ name)⟩

/-- The apostrophe character, used by the not-found error message. -/
def squote : String := String.singleton (Char.ofNat 39)

/-- Get retrieves a provider by name, or the not-found error. -/
def Registry.Get {P : Type} (r : Registry P) (name : String) : Except String P :=
  match r.providers.find? (fun kv => kv.1 = name) with
  | some kv => Except.ok kv.2
  | none => Except.error (("provider ") ++ squote ++ name ++ squote ++ (" not found"))

/-- List returns all registered provider names (map iteration). -/
def Registry.List {P : Type} (r : Registry P) : List String :=
  r.providers.map (fun kv => kv.1)

/-! ## GenerateUserPrompt (part_001 lines 61-97)

The strings.Builder writes are modelled as one concatenation in write
order. -/

def userPromptIntro : String := "Please review the following code changes:\n\n"

/-- The optional context block: each line omitted when its field is empty,
exactly as the Go conditionals write it. -/
def userPromptContext (gi : Option GitInfo) : String :=
  match gi with
  | none => ""
  | some info =>
    ("**Context:**\n")
    ++ (if info.RepoURL ≠ "" then ("- Repository: ") ++ info.RepoURL ++ ("\n") else "")
    ++ (if info.BranchName ≠ "" then ("- Branch: ") ++ info.BranchName ++ ("\n") else "")
    ++ (if info.PRNumber ≠ "" then ("- PR Number: #") ++ info.PRNumber ++ ("\n") else "")
    ++ ("\n")

def userPromptInstructions : String :=
  ("**Review Instructions:**\n")
  ++ ("1. Check EVERY changed line against ALL 6 categories:\n")
  ++ ("   - Possible Bug\n")
  ++ ("   - Best Practice\n")
  ++ ("   - Performance\n")
  ++ ("   - Maintainability\n")
  ++ ("   - Possible Issue\n")
  ++ ("   - Enhancement\n\n")
  ++ ("2. Provide specific line numbers and actionable suggestions\n")
  ++ ("3. Respond ONLY with valid JSON in the format specified\n")

/-- GenerateUserPrompt: intro, optional context, the fenced diff, fixed
instruction footer. -/
def GenerateUserPrompt (request : ReviewRequest) : String :=
  userPromptIntro
  ++ userPromptContext request.GitInfo
  ++ ("**Git Diff:**\n```diff\n")
  ++ request.GitDiff
  ++ ("\n```\n\n")
  ++ userPromptInstructions

/-! ## Regular-expression engine

Go regexp (RE2) reports, among the matches starting at the leftmost
possible position, the one a backtracking engine with Perl ordering would
find.  The three patterns of the source are embedded as explicit pattern
trees and run through a fuel-bounded backtracking matcher in
continuation-passing style; alternation prefers the left branch, stars
carry a laziness flag.  Fuel is sized generously from the input length;
exhaustion would surface as a missed match, and the concrete evaluations
below confirm the fuel suffices on every decided input. -/

inductive RE where
  | eps
  | eos
  | cls (p : Char → Bool)
  | str (cs : List Char)
  | istr (cs : List Char)
  | cat (a b : RE)
  | alt (a b : RE)
  | star (a : RE) (lz : Bool)
  | grp (idx : Nat) (a : RE)

/-- Captured groups: index paired with the captured characters. -/
def Caps : Type := List (Nat × List Char)

/-- Consume a literal (case-insensitively when ci is true), returning the
rest of the input. -/
def matchLit : List Char → List Char → Bool → Option (List Char)
  | [], l, _ => some l
  | _ :: _, [], _ => none
  | c :: cs, x :: l, ci =>
    if (if ci then c.toLower = x.toLower else c = x) then matchLit cs l ci else none

/-- Backtracking matcher in CPS: try to match re at the head of l, calling
the continuation with the rest of the input and the captures collected. -/
def reMatch {A : Type} : Nat → RE → List Char → Caps → (List Char → Caps → Option A) →
    Option A
  | 0, _, _, _, _ => none
  | _ + 1, RE.eps, l, caps, k => k l caps
  | _ + 1, RE.eos, l, caps, k => if l.isEmpty then k l caps else none
  | _ + 1, RE.cls p, l, caps, k =>
    match l with
    | [] => none
    | c :: rest => if p c then k rest caps else none
  | _ + 1, RE.str cs, l, caps, k =>
    match matchLit cs l false with
    | some rest => k rest caps
    | none => none
  | _ + 1, RE.istr cs, l, caps, k =>
    match matchLit cs l true with
    | some rest => k rest caps
    | none => none
  | fuel + 1, RE.cat a b, l, caps, k =>
    reMatch fuel a l caps (fun l2 c2 => reMatch fuel b l2 c2 k)
  | fuel + 1, RE.alt a b, l, caps, k =>
    (reMatch fuel a l caps k).orElse (fun _ => reMatch fuel b l caps k)
  | fuel + 1, RE.star a lz, l, caps, k =>
    let again := fun l2 c2 =>
      if l2.length < l.length then reMatch fuel (RE.star a lz) l2 c2 k else none
    if lz then (k l caps).orElse (fun _ => reMatch fuel a l caps again)
    else (reMatch fuel a l caps again).orElse (fun _ => k l caps)
  | fuel + 1, RE.grp i a, l, caps, k =>
    reMatch fuel a l caps (fun l2 c2 => k l2 ((i, l.take (l.length - l2.length)) :: c2))

/-- Submatch text for group i after a successful match ("" when absent),
as Go indexes FindStringSubmatch results. -/
def capString (i : Nat) (caps : Caps) : String :=
  match List.find? (fun c => c.1 = i) caps with
  | some c => String.mk c.2
  | none => ""

/-- Attempt a match anchored at the head of l. -/
def tryMatchAt (re : RE) (fuel : Nat) (l : List Char) : Option (List Char × Caps) :=
  reMatch fuel re l [] (fun rest caps => some (rest, caps))

/-- Leftmost match: slide the anchor right until a match starts; returns
captures, the input remaining after the match, and the matched length. -/
def reFindFirst (re : RE) : Nat → List Char → Option (Caps × List Char × Nat)
  | 0, _ => none
  | steps + 1, l =>
    match tryMatchAt re (50 * (l.length + 1) + 100) l with
    | some (rest, caps) => some (caps, rest, l.length - rest.length)
    | none =>
      match l with
      | [] => none
      | _ :: t => reFindFirst re steps t

/-- All successive non-overlapping leftmost matches, advancing one
character past an empty match, as FindAllStringSubmatch does. -/
def reFindAll (re : RE) : Nat → List Char → List Caps
  | 0, _ => []
  | steps + 1, l =>
    match reFindFirst re (l.length + 1) l with
    | none => []
    | some (caps, rest, consumed) =>
      caps :: reFindAll re steps (if consumed = 0 then rest.drop 1 else rest)

/-- FindStringSubmatch, keeping only the capture list. -/
def reFindCaps (re : RE) (s : String) : Option Caps :=
  (reFindFirst re (s.length + 1) s.toList).map (fun r => r.1)

/-- FindAllStringSubmatch with no match limit. -/
def reFindAllCaps (re : RE) (s : String) : List Caps :=
  reFindAll re (s.length + 1) s.toList

/-! ## The three patterns of part_001 -/

def lbraceChar : Char := Char.ofNat 123

def rbraceChar : Char := Char.ofNat 125

/-- RE2 Perl class backslash-s: tab, newline, form feed, carriage return,
space. -/
def isRegexSpace (c : Char) : Bool :=
  c = ' ' || c = '\t' || c = '\n' || c.toNat = 12 || c = '\r'

def reSeq (l : List RE) : RE := l.foldr RE.cat RE.eps

/-- Pattern (?s)backtick-fence(?:json)? of extractJSON: a fenced code
block, optionally labeled json, capturing the first brace span inside the
fences with a lazy dot-matches-newline star. -/
def codeBlockRE : RE := reSeq [
  RE.str (("```").toList),
  RE.alt (RE.str (("json").toList)) RE.eps,
  RE.star (RE.cls isRegexSpace) false,
  RE.grp 1 (reSeq [
    RE.cls (fun c => c = lbraceChar),
    RE.star (RE.cls (fun _ => true)) true,
    RE.cls (fun c => c = rbraceChar)]),
  RE.star (RE.cls isRegexSpace) false,
  RE.str (("```").toList)]

/-- Pattern (?s) capturing a brace span holding the quoted keys overview
then issues, with greedy any-character stars, of extractJSON. -/
def jsonRE : RE := RE.grp 1 (reSeq [
  RE.cls (fun c => c = lbraceChar),
  RE.star (RE.cls (fun _ => true)) false,
  RE.str (("\"overview\"").toList),
  RE.star (RE.cls (fun _ => true)) false,
  RE.str (("\"issues\"").toList),
  RE.star (RE.cls (fun _ => true)) false,
  RE.cls (fun c => c = rbraceChar)])

/-- Pattern (?i) file-or-path colon, the path, lazily up to line-or-L
colon, the digits, lazily up to a dash or colon, then the message up to
newline or end of text, of parseUnstructuredResponse.  Dot does not match
newline here (no s flag); the dollar anchor matches only at end of text
in Go. -/
def fileLineRE : RE := reSeq [
  RE.alt (RE.istr (("file").toList)) (RE.istr (("path").toList)),
  RE.cls (fun c => c = ':'),
  RE.star (RE.cls isRegexSpace) false,
  RE.grp 1 (reSeq [
    RE.cls (fun c => !(isRegexSpace c)),
    RE.star (RE.cls (fun c => !(isRegexSpace c))) false]),
  RE.star (RE.cls (fun c => c ≠ '\n')) true,
  RE.alt (RE.istr (("line").toList)) (RE.istr (("l").toList)),
  RE.cls (fun c => c = ':'),
  RE.star (RE.cls isRegexSpace) false,
  RE.grp 2 (reSeq [
    RE.cls Char.isDigit,
    RE.star (RE.cls Char.isDigit) false]),
  RE.star (RE.cls (fun c => c ≠ '\n')) true,
  RE.cls (fun c => c = '-' || c = ':'),
  RE.star (RE.cls isRegexSpace) false,
  RE.grp 3 (reSeq [
    RE.cls (fun c => c ≠ '\n'),
    RE.star (RE.cls (fun c => c ≠ '\n')) true]),
  RE.alt (RE.cls (fun c => c = '\n')) RE.eos]

/-- extractJSON: the fenced-block pattern first, then the raw-JSON
pattern, else the text unchanged. -/
def extractJSON (text : String) : String :=
  match reFindCaps codeBlockRE text with
  | some caps => capString 1 caps
  | none =>
    match reFindCaps jsonRE text with
    | some caps => capString 1 caps
    | none => text

/-! ## JSON values and parser

Model of the encoding/json syntax accepted by Unmarshal: the full JSON
grammar with strict number syntax, escape validation, and rejection of raw
control characters in strings.  Numbers keep their literal spelling, since
binding a number to a Go int field re-parses the literal and fails on
fractions or exponents.  The one simplification: a Unicode escape is
decoded as a single code point without surrogate-pair recombination (no
decided input contains a Unicode escape). -/

inductive JValue where
  | jnull
  | jbool (b : Bool)
  | jnum (lit : List Char)
  | jstr (s : List Char)
  | jarr (xs : List JValue)
  | jobj (kvs : List (List Char × JValue))

def isJsonWS (c : Char) : Bool :=
  c = ' ' || c = '\t' || c = '\n' || c = '\r'

def skipWS (l : List Char) : List Char := l.dropWhile isJsonWS

def hexVal (c : Char) : Option Nat :=
  if c.isDigit then some (c.toNat - 48)
  else if 'a' ≤ c && c ≤ 'f' then some (c.toNat - 87)
  else if 'A' ≤ c && c ≤ 'F' then some (c.toNat - 55)
  else none

/-- Body of a JSON string after the opening quote: returns the decoded
characters and the input after the closing quote. -/
def parseStrBody : Nat → List Char → Option (List Char × List Char)
  | 0, _ => none
  | _ + 1, [] => none
  | fuel + 1, c :: rest =>
    if c = '"' then some ([], rest)
    else if c.toNat < 32 then none
    else if c = '\\' then
      match rest with
      | [] => none
      | e :: rest2 =>
        if e = '"' || e = '\\' || e = '/' then
          (parseStrBody fuel rest2).map (fun r => (e :: r.1, r.2))
        else if e = 'b' then (parseStrBody fuel rest2).map (fun r => (Char.ofNat 8 :: r.1, r.2))
        else if e = 'f' then (parseStrBody fuel rest2).map (fun r => (Char.ofNat 12 :: r.1, r.2))
        else if e = 'n' then (parseStrBody fuel rest2).map (fun r => ('\n' :: r.1, r.2))
        else if e = 'r' then (parseStrBody fuel rest2).map (fun r => ('\r' :: r.1, r.2))
        else if e = 't' then (parseStrBody fuel rest2).map (fun r => ('\t' :: r.1, r.2))
        else if e = 'u' then
          match rest2 with
          | h1 :: h2 :: h3 :: h4 :: rest3 =>
            match hexVal h1, hexVal h2, hexVal h3, hexVal h4 with
            | some v1, some v2, some v3, some v4 =>
              let v := ((v1 * 16 + v2) * 16 + v3) * 16 + v4
              let ch := if 55296 ≤ v && v < 57344 then Char.ofNat 65533 else Char.ofNat v
              (parseStrBody fuel rest3).map (fun r => (ch :: r.1, r.2))
            | _, _, _, _ => none
          | _ => none
        else none
    else (parseStrBody fuel rest).map (fun r => (c :: r.1, r.2))

/-- A JSON number literal at the head of the input: optional minus, an
integer part with no leading zero, optional fraction, optional exponent.
Returns the literal and the rest. -/
def parseNum (l : List Char) : Option (List Char × List Char) :=
  let digitsOf : List Char → Option (List Char × List Char) := fun m =>
    let ds := m.takeWhile Char.isDigit
    if ds.isEmpty then none else some (ds, m.drop ds.length)
  let afterSign : List Char → Option (List Char × List Char) := fun m =>
    match m with
    | [] => none
    | c :: rest =>
      if c = '0' then some ([c], rest)
      else if c.isDigit then
        (digitsOf rest).map (fun r => (c :: r.1, r.2)) |>.orElse (fun _ => some ([c], rest))
      else none
  let afterInt : List Char × List Char → Option (List Char × List Char) := fun r =>
    match r.2 with
    | '.' :: rest =>
      (digitsOf rest).map (fun d => (r.1 ++ '.' :: d.1, d.2))
    | _ => some r
  let afterFrac : List Char × List Char → Option (List Char × List Char) := fun r =>
    match r.2 with
    | c :: rest =>
      if c = 'e' || c = 'E' then
        match rest with
        | s :: rest2 =>
          if s = '+' || s = '-' then
            (digitsOf rest2).map (fun d => (r.1 ++ c :: s :: d.1, d.2))
          else (digitsOf rest).map (fun d => (r.1 ++ c :: d.1, d.2))
        | [] => none
      else some r
    | [] => some r
  match l with
  | '-' :: rest => (afterSign rest).bind (fun r => (afterInt (('-' :: r.1), r.2)).bind afterFrac)
  | _ => (afterSign l).bind (fun r => (afterInt r).bind afterFrac)

mutual

def parseValue : Nat → List Char → Option (JValue × List Char)
  | 0, _ => none
  | fuel + 1, l =>
    match l with
    | [] => none
    | c :: rest =>
      if c = lbraceChar then
        match skipWS rest with
        | c2 :: rest2 =>
          if c2 = rbraceChar then some (JValue.jobj [], rest2)
          else (parseMembers fuel (c2 :: rest2)).map (fun r => (JValue.jobj r.1, r.2))
        | [] => none
      else if c = '[' then
        match skipWS rest with
        | ']' :: rest2 => some (JValue.jarr [], rest2)
        | l2 => (parseElems fuel l2).map (fun r => (JValue.jarr r.1, r.2))
      else if c = '"' then
        (parseStrBody (rest.length + 1) rest).map (fun r => (JValue.jstr r.1, r.2))
      else if c = 't' then
        (matchLit (("rue").toList) rest false).map (fun r => (JValue.jbool true, r))
      else if c = 'f' then
        (matchLit (("alse").toList) rest false).map (fun r => (JValue.jbool false, r))
      else if c = 'n' then
        (matchLit (("ull").toList) rest false).map (fun r => (JValue.jnull, r))
      else (parseNum (c :: rest)).map (fun r => (JValue.jnum r.1, r.2))

/-- Object members, positioned at the first character of a key (after any
whitespace following the opening brace or a comma). -/
def parseMembers : Nat → List Char → Option (List (List Char × JValue) × List Char)
  | 0, _ => none
  | fuel + 1, l =>
    match l with
    | '"' :: rest =>
      match parseStrBody (rest.length + 1) rest with
      | none => none
      | some (key, r1) =>
        match skipWS r1 with
        | ':' :: r2 =>
          match parseValue fuel (skipWS r2) with
          | none => none
          | some (v, r3) =>
            match skipWS r3 with
            | ',' :: r4 => (parseMembers fuel (skipWS r4)).map (fun p => ((key, v) :: p.1, p.2))
            | c2 :: r4 => if c2 = rbraceChar then some ([(key, v)], r4) else none
            | [] => none
        | _ => none
    | _ => none

/-- Array elements, positioned at the first character of a value. -/
def parseElems : Nat → List Char → Option (List JValue × List Char)
  | 0, _ => none
  | fuel + 1, l =>
    match parseValue fuel l with
    | none => none
    | some (v, r1) =>
      match skipWS r1 with
      | ',' :: r2 => (parseElems fuel (skipWS r2)).map (fun p => (v :: p.1, p.2))
      | ']' :: r2 => some ([v], r2)
      | _ => none

end

/-- Parse a complete JSON text: one value with only whitespace around it,
as Unmarshal requires. -/
def jsonParse (s : String) : Option JValue :=
  match parseValue (s.length + 1) (skipWS s.toList) with
  | some (v, rest) => if (skipWS rest).isEmpty then some v else none
  | none => none

/-! ## Unmarshal binding to the raw response struct of ParseAIResponse -/

structure RawIssue where
  File : String
  Line : Int
  Column : Int
  Severity : String
  Category : String
  Message : String
  Suggestion : String
deriving Repr, DecidableEq

def emptyRawIssue : RawIssue := ⟨"", 0, 0, "", "", "", ""⟩

structure RawResponse where
  Overview : String
  Issues : List RawIssue
deriving Repr, DecidableEq

def emptyRawResponse : RawResponse := ⟨"", []⟩

/-- Unmarshal matches object keys to field tags case-insensitively; all
tags here are lowercase and pairwise distinct, so exact-match preference
cannot change the outcome. -/
def keyIs (k : List Char) (name : String) : Bool :=
  k.map Char.toLower = name.toList

def digitsInt (l : List Char) : Int :=
  l.foldl (fun a c => a * 10 + ((c.toNat : Int) - 48)) 0

/-- strconv.ParseInt as applied by Unmarshal to a number literal bound to
an int field: fractions and exponents are rejected. -/
def intFromLit (l : List Char) : Option Int :=
  match l with
  | '-' :: rest => if !rest.isEmpty && rest.all Char.isDigit then some (- digitsInt rest) else none
  | _ => if !l.isEmpty && l.all Char.isDigit then some (digitsInt l) else none

/-- Binding a JSON value to a string field: null is a no-op, a
non-string is a type error. -/
def setStrField (v : JValue) (cur : String) : Option String :=
  match v with
  | JValue.jstr s => some (String.mk s)
  | JValue.jnull => some cur
  | _ => none

/-- Binding a JSON value to an int field. -/
def setIntField (v : JValue) (cur : Int) : Option Int :=
  match v with
  | JValue.jnum lit => intFromLit lit
  | JValue.jnull => some cur
  | _ => none

def setIssueField (acc : RawIssue) (k : List Char) (v : JValue) : Option RawIssue :=
  if keyIs k ("file") then (setStrField v acc.File).map (fun s => { acc with File := s })
  else if keyIs k ("line") then (setIntField v acc.Line).map (fun n => { acc with Line := n })
  else if keyIs k ("column") then (setIntField v acc.Column).map (fun n => { acc with Column := n })
  else if keyIs k ("severity") then (setStrField v acc.Severity).map (fun s => { acc with Severity := s })
  else if keyIs k ("category") then (setStrField v acc.Category).map (fun s => { acc with Category := s })
  else if keyIs k ("message") then (setStrField v acc.Message).map (fun s => { acc with Message := s })
  else if keyIs k ("suggestion") then (setStrField v acc.Suggestion).map (fun s => { acc with Suggestion := s })
  else some acc

/-- Unmarshal of one element of the issues array: an object binds its
keys in order (a later duplicate key overwrites), null is a no-op
leaving the zero value, anything else is a type error. -/
def unmarshalIssue (v : JValue) : Option RawIssue :=
  match v with
  | JValue.jnull => some emptyRawIssue
  | JValue.jobj kvs => kvs.foldlM (fun acc kv => setIssueField acc kv.1 kv.2) emptyRawIssue
  | _ => none

def setResponseField (acc : RawResponse) (k : List Char) (v : JValue) : Option RawResponse :=
  if keyIs k ("overview") then (setStrField v acc.Overview).map (fun s => { acc with Overview := s })
  else if keyIs k ("issues") then
    match v with
    | JValue.jarr xs => (xs.mapM unmarshalIssue).map (fun l => { acc with Issues := l })
    | JValue.jnull => some acc
    | _ => none
  else some acc

def unmarshalResponse (v : JValue) : Option RawResponse :=
  match v with
  | JValue.jnull => some emptyRawResponse
  | JValue.jobj kvs => kvs.foldlM (fun acc kv => setResponseField acc kv.1 kv.2) emptyRawResponse
  | _ => none

/-- json.Unmarshal into the anonymous raw-response struct of
ParseAIResponse: some on success, none exactly when Unmarshal returns a
non-nil error. -/
def jsonUnmarshalResponse (s : String) : Option RawResponse :=
  (jsonParse s).bind unmarshalResponse

/-! ## ParseAIResponse and parseUnstructuredResponse (part_001) -/

/-- The conversion ParseAIResponse applies to each decoded issue:
severity normalization, the column-zero default, end column one past the
start, empty URL, fixed category code value from the issue. -/
def convertIssue (issue : RawIssue) : Diagnostic :=
  let column : Int := if issue.Column = 0 then 1 else issue.Column
  ⟨issue.Message,
   ⟨issue.File, ⟨⟨issue.Line, column⟩, ⟨issue.Line, column + 1⟩⟩⟩,
   normalizeSeverity issue.Severity,
   ⟨issue.Category, ""⟩,
   "",
   issue.Suggestion⟩

/-- One match of the file-line pattern becomes a fallback diagnostic: the
guard on the submatch count in the source is always true, since the
pattern has exactly three groups. -/
def matchToDiagnostic (caps : Caps) : Diagnostic :=
  let line := goAtoi (capString 2 caps)
  ⟨goTrimSpace (capString 3 caps),
   ⟨capString 1 caps, ⟨⟨line, 1⟩, ⟨line, 2⟩⟩⟩,
   "INFO",
   ⟨"ai-review", ""⟩,
   "",
   ""⟩

/-- The source initializes the overview to the fixed sentence and, only
when no diagnostics were found, replaces it by the first trimmed line
that is non-empty and does not start with a number sign; this function is
that loop including its default. -/
def firstOverviewLine : List String → String
  | [] => "AI code review completed"
  | l :: ls =>
    let t := goTrimSpace l
    if t ≠ "" && !(goStartsWith t ("#")) then t else firstOverviewLine ls

def parseUnstructuredResult (text : String) : AIProviderResponse :=
  let diagnostics := (reFindAllCaps fileLineRE text).map matchToDiagnostic
  ⟨if diagnostics.length = 0 then firstOverviewLine (goSplitNewline text)
    else "AI code review completed",
   diagnostics⟩

/-- parseUnstructuredResponse always returns with a nil error in the
source; the Except mirrors the Go (result, error) pair. -/
def parseUnstructuredResponse (text : String) : Except String AIProviderResponse :=
  Except.ok (parseUnstructuredResult text)

/-- ParseAIResponse: extract a JSON candidate, try the structured decode,
and degrade to the unstructured parse of the original text when the
decode fails. -/
def ParseAIResponse (responseText : String) : Except String AIProviderResponse :=
  match jsonUnmarshalResponse (extractJSON responseText) with
  | none => parseUnstructuredResponse responseText
  | some raw => Except.ok ⟨raw.Overview, raw.Issues.map convertIssue⟩

/-! ## Spec-side definition for the overview synthesis comparison -/

/-- Overview synthesis as the spec words it, for comparison with the
source loop: the first line of the raw text that is non-empty after
trimming and does not begin with a number sign, defaulting to the fixed
review-completed sentence. -/
def specOverview (text : String) : String :=
  ((((goSplitNewline text).map goTrimSpace).find?
      (fun t => t ≠ ("") && !(goStartsWith t ("#"))))).getD ("AI code review completed")

/-! ## Concrete inputs for the decided instances -/

def c2input : String := "\x7b\"overview\":\"\",\"issues\":[]\x7d"

def c4json : String :=
  "\x7b\"overview\":\"o\",\"issues\":[\x7b\"file\":\"a.go\",\"line\":42,\"severity\":\"WARN\",\"category\":\"possible-bug\",\"message\":\"m\"\x7d]\x7d"

def c4issue : RawIssue := ⟨"a.go", 42, 0, "WARN", "possible-bug", "m", ""⟩

def c5req : ReviewRequest := ⟨"gpt", "openai", "go", "full", "+ x = 1\n- x = 0", none⟩

def c6json : String := "\x7b\"overview\":\"x\",\"issues\":[]\x7d"

def c6text : String :=
  "Here is my review:\n```json\n\x7b\"overview\":\"x\",\"issues\":[]\x7d\n```\nLet me know if you need more."

def c6caps : Caps := [(1, c6json.toList)]

def c6unlabeled : String := "Result:\n```\n\x7b\"overview\":\"y\",\"issues\":[]\x7d\n```"

def c7text : String := "File: app.py Line: 10 - missing null check"

def c7diag : Diagnostic :=
  ⟨"missing null check", ⟨"app.py", ⟨⟨10, 1⟩, ⟨10, 2⟩⟩⟩, "INFO", ⟨"ai-review", ""⟩, "", ""⟩

def c8text : String := "# Title\n\n  All good!"

def c10text : String := "File: a.py Line: 3 - m"

def c10diag : Diagnostic :=
  ⟨"m", ⟨"a.py", ⟨⟨3, 1⟩, ⟨3, 2⟩⟩⟩, "INFO", ⟨"ai-review", ""⟩, "", ""⟩

def c10issue : RawIssue := ⟨"f.go", 7, 5, "ERROR", "c", "m", "s"⟩

/-! ## Helper lemmas -/

instance exceptDecEq {ε α : Type} [DecidableEq ε] [DecidableEq α] :
    DecidableEq (Except ε α) := fun a b =>
  match a, b with
  | Except.ok x, Except.ok y =>
    if h : x = y then Decidable.isTrue (by rw [h])
    else Decidable.isFalse (fun hc => h (Except.ok.inj hc))
  | Except.error x, Except.error y =>
    if h : x = y then Decidable.isTrue (by rw [h])
    else Decidable.isFalse (fun hc => h (Except.error.inj hc))
  | Except.ok _, Except.error _ => Decidable.isFalse (fun hc => Except.noConfusion hc)
  | Except.error _, Except.ok _ => Decidable.isFalse (fun hc => Except.noConfusion hc)

lemma normalizeSeverity_cases (s : String) :
    normalizeSeverity s = "ERROR" ∨ normalizeSeverity s = "WARNING" ∨
      normalizeSeverity s = "INFO" := by
  simp only [normalizeSeverity]
  split_ifs <;> simp

lemma firstOverviewLine_ne_empty (ls : List String) : firstOverviewLine ls ≠ "" := by
  induction ls with
  | nil => simp [firstOverviewLine]
  | cons l t ih =>
    unfold firstOverviewLine
    cases hb : ((goTrimSpace l ≠ ("")) && !(goStartsWith (goTrimSpace l) ("#"))) with
    | true =>
      simp only [hb, if_true]
      simp only [Bool.and_eq_true, decide_eq_true_eq] at hb
      exact hb.1
    | false =>
      simp only [hb, if_false]
      exact ih

lemma firstOverviewLine_eq_spec (ls : List String) :
    firstOverviewLine ls =
      (((ls.map goTrimSpace).find?
          (fun t => t ≠ ("") && !(goStartsWith t ("#"))))).getD ("AI code review completed") := by
  induction ls with
  | nil => rfl
  | cons l t ih =>
    unfold firstOverviewLine
    simp only [List.map_cons, List.find?_cons]
    cases hb : ((goTrimSpace l ≠ ("")) && !(goStartsWith (goTrimSpace l) ("#"))) with
    | true => simp [hb]
    | false => simp [hb, ih]

/-! ## Claims -/

/-- Claim C1: for every input string, ParseAIResponse returns a result
and never an error — when the structured JSON decode fails it degrades to
the unstructured fallback parse, which itself always succeeds. -/
theorem C1_parse_never_errors (s : String) : ∃ r, ParseAIResponse s = Except.ok r := by
  unfold ParseAIResponse
  cases jsonUnmarshalResponse (extractJSON s) with
  | none => exact ⟨parseUnstructuredResult s, rfl⟩
  | some raw => exact ⟨⟨raw.Overview, raw.Issues.map convertIssue⟩, rfl⟩

/-- Claim C1 witness: the theorem applied at the empty string. -/
theorem C1_parse_never_errors_witness :
    ∃ r, ParseAIResponse "" = Except.ok r :=
  C1_parse_never_errors ""

/-- Claim C2 counterexample: a valid structured response whose overview
field is the empty string is decoded on the structured path, and the
normalized result keeps the empty overview — the claim that every
normalized overview is non-empty fails on this input. -/
theorem C2_overview_counterexample :
    ParseAIResponse c2input = Except.ok ⟨"", []⟩ := rfl

/-- Claim C2 amended: whenever the structured decode fails (the fallback
path), the overview of the normalized result is non-empty; the structured
path copies the decoded overview verbatim, which may be empty. -/
theorem C2_overview_nonempty_on_fallback (s : String)
    (hj : jsonUnmarshalResponse (extractJSON s) = none) :
    ∀ r, ParseAIResponse s = Except.ok r → r.Overview ≠ "" := by
  intro r h
  unfold ParseAIResponse at h
  rw [hj] at h
  simp only [parseUnstructuredResponse, Except.ok.injEq] at h
  subst h
  show (if ((reFindAllCaps fileLineRE s).map matchToDiagnostic).length = 0
      then firstOverviewLine (goSplitNewline s)
      else "AI code review completed") ≠ ""
  split
  · exact firstOverviewLine_ne_empty _
  · simp

/-- Claim C2 amended witness: the theorem applied at the empty string,
whose fallback result carries the fixed review-completed overview. -/
theorem C2_overview_nonempty_on_fallback_witness :
    (AIProviderResponse.mk ("AI code review completed") []).Overview ≠ "" :=
  C2_overview_nonempty_on_fallback "" rfl ⟨"AI code review completed", []⟩ (by decide)

/-- Claim C3: severity normalization maps the ERROR tokens to ERROR, the
WARNING tokens to WARNING, every other token (the INFO tokens included)
to INFO after case-folding, and it is idempotent on every string. -/
theorem C3_severity_normalization (s : String) :
    (goToUpper (goTrimSpace s) ∈ ["ERROR", "CRITICAL", "HIGH"] →
      normalizeSeverity s = "ERROR")
    ∧ (goToUpper (goTrimSpace s) ∈ ["WARNING", "WARN", "MEDIUM"] →
      normalizeSeverity s = "WARNING")
    ∧ (goToUpper (goTrimSpace s) ∉
        ["ERROR", "CRITICAL", "HIGH", "WARNING", "WARN", "MEDIUM"] →
      normalizeSeverity s = "INFO")
    ∧ normalizeSeverity (normalizeSeverity s) = normalizeSeverity s := by
  refine ⟨?_, ?_, ?_, ?_⟩
  · intro h
    simp only [List.mem_cons, List.not_mem_nil, or_false] at h
    rcases h with h | h | h <;> simp [normalizeSeverity, h]
  · intro h
    simp only [List.mem_cons, List.not_mem_nil, or_false] at h
    rcases h with h | h | h <;> simp [normalizeSeverity, h]
  · intro h
    simp only [List.mem_cons, List.not_mem_nil, or_false, not_or] at h
    obtain ⟨h1, h2, h3, h4, h5, h6⟩ := h
    simp [normalizeSeverity, h1, h2, h3, h4, h5, h6]
  · rcases normalizeSeverity_cases s with h | h | h <;> rw [h] <;> rfl

/-- Claim C3 witness: the theorem applied at concrete tokens of each
class — a case-folded ERROR token, a WARNING token, an unrecognized
token — plus idempotence at a concrete INFO token. -/
theorem C3_severity_normalization_witness :
    normalizeSeverity (" high ") = "ERROR"
    ∧ normalizeSeverity ("warn") = "WARNING"
    ∧ normalizeSeverity ("bogus token") = "INFO"
    ∧ normalizeSeverity (normalizeSeverity ("note")) = normalizeSeverity ("note") :=
  ⟨(C3_severity_normalization (" high ")).1 (by decide),
   (C3_severity_normalization ("warn")).2.1 (by decide),
   (C3_severity_normalization ("bogus token")).2.2.1 (by decide),
   (C3_severity_normalization ("note")).2.2.2⟩

set_option maxRecDepth 8192 in
/-- Claim C4: in the structured path, an issue decoded with column zero
(the Go zero value standing for an absent column) is assigned start
column 1 and end column 2; in particular the concrete structured response
with line 42 and no column field produces the range start line 42 column
1, end line 42 column 2. -/
theorem C4_column_default :
    (∀ issue : RawIssue, issue.Column = 0 →
      (convertIssue issue).Location.Range = ⟨⟨issue.Line, 1⟩, ⟨issue.Line, 2⟩⟩)
    ∧ ParseAIResponse c4json =
        Except.ok ⟨"o",
          [⟨"m", ⟨"a.go", ⟨⟨42, 1⟩, ⟨42, 2⟩⟩⟩, "WARNING", ⟨"possible-bug", ""⟩, "", ""⟩]⟩ := by
  constructor
  · intro issue h
    unfold convertIssue
    rw [h]
    norm_num
  · rfl

/-- Claim C4 witness: the theorem applied at a concrete issue with
column zero. -/
theorem C4_column_default_witness :
    (convertIssue c4issue).Location.Range = ⟨⟨42, 1⟩, ⟨42, 2⟩⟩ :=
  (C4_column_default).1 c4issue rfl

/-- Claim C5: for any request with non-empty diff text, the generated
user prompt contains the diff text verbatim as a substring. -/
theorem C5_prompt_contains_diff (request : ReviewRequest) (_h : request.GitDiff ≠ "") :
    ∃ a b : String, GenerateUserPrompt request = a ++ request.GitDiff ++ b := by
  refine ⟨userPromptIntro ++ userPromptContext request.GitInfo ++ ("**Git Diff:**\n```diff\n"),
    ("\n```\n\n") ++ userPromptInstructions, ?_⟩
  unfold GenerateUserPrompt
  exact String.append_assoc _ _ _

/-- Claim C5 witness: the theorem applied at a concrete request with a
non-empty two-line diff. -/
theorem C5_prompt_contains_diff_witness :
    ∃ a b : String, GenerateUserPrompt c5req = a ++ c5req.GitDiff ++ b :=
  C5_prompt_contains_diff c5req (by decide)

/-- Claim C6: extraction prefers the fenced code block — whenever the
fenced-block pattern matches, extractJSON returns its first capture — and
on the concrete prose-wrapped fenced response the extraction yields the
inner JSON object and normalization yields overview x with zero
diagnostics. -/
theorem C6_fenced_extraction :
    (∀ t : String, ∀ caps : Caps, reFindCaps codeBlockRE t = some caps →
      extractJSON t = capString 1 caps)
    ∧ extractJSON c6text = c6json
    ∧ extractJSON c6unlabeled = ("\x7b\"overview\":\"y\",\"issues\":[]\x7d")
    ∧ ParseAIResponse c6text = Except.ok ⟨"x", []⟩ := by
  refine ⟨?_, rfl, rfl, rfl⟩
  intro t caps h
  unfold extractJSON
  rw [h]

/-- Claim C6 witness: the fenced-block preference applied at the concrete
input, whose capture list the engine computes. -/
theorem C6_fenced_extraction_witness :
    extractJSON c6text = capString 1 c6caps :=
  (C6_fenced_extraction).1 c6text c6caps rfl

/-- Claim C7: the JSON-free file-line text yields exactly one fallback
diagnostic with severity INFO, path app.py, line 10, the fixed ai-review
category tag, and column range 1 to 2. -/
theorem C7_fallback_concrete :
    ParseAIResponse c7text = Except.ok ⟨"AI code review completed", [c7diag]⟩ := rfl

/-- Claim C8: when the fallback line-pattern scan yields zero
diagnostics, the overview equals the spec synthesis — the first trimmed
line that is non-empty and does not begin with a number sign, defaulting
to the fixed review-completed sentence when no line qualifies. -/
theorem C8_fallback_overview (s : String)
    (h : reFindAllCaps fileLineRE s = []) :
    (parseUnstructuredResult s).Overview = specOverview s := by
  have h2 : (parseUnstructuredResult s).Overview = firstOverviewLine (goSplitNewline s) := by
    unfold parseUnstructuredResult
    rw [h]
    rfl
  rw [h2, firstOverviewLine_eq_spec]
  rfl

/-- Claim C8 witness: the theorem applied at a heading-then-text input
with no pattern matches; both sides are the first non-heading line. -/
theorem C8_fallback_overview_witness :
    (parseUnstructuredResult c8text).Overview = specOverview c8text :=
  C8_fallback_overview c8text rfl

/-- Claim C9: Get on a never-registered name returns the
provider-not-found error; Get after Register returns exactly the
registered provider; List after two registrations under distinct names
holds exactly those two names, order-independently. -/
theorem C9_registry_behavior {P : Type} (r : Registry P) (name a b : String) (p q pr : P) :
    (name ∉ r.List →
      r.Get name = Except.error (("provider ") ++ squote ++ name ++ squote ++ (" not found")))
    ∧ (r.Register a pr).Get a = Except.ok pr
    ∧ (a ≠ b →
        ∀ n, n ∈ (((NewRegistry P).Register a p).Register b q).List ↔ (n = a ∨ n = b)) := by
  refine ⟨?_, ?_, ?_⟩
  · intro hnot
    unfold Registry.Get
    have hfind : r.providers.find? (fun kv => kv.1 = name) = none := by
      rw [List.find?_eq_none]
      intro kv hkv
      simp only [decide_eq_true_eq]
      intro heq
      exact hnot (List.mem_map.mpr ⟨kv, hkv, heq⟩)
    rw [hfind]
  · unfold Registry.Register Registry.Get
    rw [List.find?_cons_of_pos _ (by simp)]
  · intro hab n
    simp [NewRegistry, Registry.Register, Registry.List, List.filter, hab]
    tauto

/-- Claim C9 witness: the theorem applied over Nat providers at concrete
names, discharging the never-registered and distinctness hypotheses. -/
theorem C9_registry_behavior_witness :
    ((NewRegistry Nat).Get ("z") =
      Except.error (("provider ") ++ squote ++ ("z") ++ squote ++ (" not found")))
    ∧ ((NewRegistry Nat).Register ("x") 1).Get ("x") = Except.ok 1
    ∧ (("x") ∈ (((NewRegistry Nat).Register ("x") 1).Register ("y") 2).List ↔
        (("x") = ("x") ∨ ("x") = ("y"))) :=
  ⟨(C9_registry_behavior (NewRegistry Nat) ("z") ("x") ("y") 1 2 1).1 (by decide),
   (C9_registry_behavior (NewRegistry Nat) ("z") ("x") ("y") 1 2 1).2.1,
   (C9_registry_behavior (NewRegistry Nat) ("z") ("x") ("y") 1 2 1).2.2 (by decide) ("x")⟩

/-- Claim C10: every diagnostic from either parse path has end line equal
to start line and end column equal to start column plus one; with an
explicit positive column the range runs from that column to the next. -/
theorem C10_range_invariant :
    (∀ s : String, ∀ r : AIProviderResponse, ParseAIResponse s = Except.ok r →
      ∀ d ∈ r.Diagnostics,
        d.Location.Range.End.Line = d.Location.Range.Start.Line ∧
        d.Location.Range.End.Column = d.Location.Range.Start.Column + 1)
    ∧ (∀ issue : RawIssue, 0 < issue.Column →
        (convertIssue issue).Location.Range =
          ⟨⟨issue.Line, issue.Column⟩, ⟨issue.Line, issue.Column + 1⟩⟩) := by
  constructor
  · intro s r h d hd
    unfold ParseAIResponse at h
    cases hj : jsonUnmarshalResponse (extractJSON s) with
    | none =>
      rw [hj] at h
      simp only [parseUnstructuredResponse, Except.ok.injEq] at h
      subst h
      have hd2 : d ∈ (reFindAllCaps fileLineRE s).map matchToDiagnostic := hd
      rw [List.mem_map] at hd2
      obtain ⟨caps, _, hc⟩ := hd2
      subst hc
      exact ⟨rfl, rfl⟩
    | some raw =>
      rw [hj] at h
      simp only [Except.ok.injEq] at h
      subst h
      have hd2 : d ∈ raw.Issues.map convertIssue := hd
      rw [List.mem_map] at hd2
      obtain ⟨issue, _, hc⟩ := hd2
      subst hc
      exact ⟨rfl, rfl⟩
  · intro issue hpos
    have hne : ¬ issue.Column = 0 := by omega
    unfold convertIssue
    simp [hne]

/-- Claim C10 witness: the theorem applied at a concrete fallback result
and at a concrete issue carrying explicit column 5. -/
theorem C10_range_invariant_witness :
    (c10diag.Location.Range.End.Line = c10diag.Location.Range.Start.Line ∧
      c10diag.Location.Range.End.Column = c10diag.Location.Range.Start.Column + 1)
    ∧ (convertIssue c10issue).Location.Range = ⟨⟨7, 5⟩, ⟨7, 6⟩⟩ :=
  ⟨(C10_range_invariant).1 c10text ⟨"AI code review completed", [c10diag]⟩
      (by decide) c10diag (by decide),
   (C10_range_invariant).2 c10issue (by decide)⟩

end AIReview
